import Mathlib

/-!
Verification of the note-workflow controller in `src/App.tsx` together with the
storage access configuration in `amplify/storage/resource.ts`.

The controller is embedded shallowly: the external collaborators (record store,
blob store) are an explicit `Env` of oracles, the React component state is an
explicit `AppState`, and each operation (`fetchNotes`, `createNote`,
`deleteNote`) is a pure function returning the emitted call trace, the new
state, and an `Except` outcome (`.error ()` models a thrown/rejected promise).
-/

deriving instance DecidableEq for Except

namespace NotesApp

/-- Models JavaScript `String.prototype.trim`: strips leading and trailing
whitespace characters (modelled by `Char.isWhitespace`). -/
def jsTrim (s : String) : String :=
  ⟨((s.data.dropWhile Char.isWhitespace).reverse.dropWhile Char.isWhitespace).reverse⟩

/-- A Note record as returned by the record store (the `Todo` model).
The two image fields are dynamic: `readStringProp` in `src/App.tsx` yields the
field's value when it is present with a string value and `undefined` otherwise,
so each is modelled as `Option String` (`none` = field missing or non-string). -/
structure Record where
  id : String
  title : String
  content : Option String
  imageKey : Option String
  image : Option String
deriving DecidableEq

/-- `src/App.tsx` `getImageKey` (lines 37–39): reads the `"imageKey"` field and
falls back to `"image"`.  JavaScript `??` falls through only on
`undefined`/`null`, so a present-but-empty `imageKey` string is returned as is. -/
def getImageKey (note : Record) : Option String :=
  match note.imageKey with
  | some s => some s
  | none => note.image

/-- The create payload sent to the record store (both candidate image fields). -/
structure CreateInput where
  title : String
  content : Option String
  imageKey : Option String
  image : Option String
deriving DecidableEq

/-- `src/App.tsx` `buildCreateInput` (lines 42–54): spreads the base fields and,
when `imageKey` is truthy (`if (imageKey)`: present and non-empty), writes it to
both the `imageKey` and `image` fields of the payload. -/
def buildCreateInput (title : String) (content : Option String)
    (imageKey : Option String) : CreateInput :=
  match imageKey with
  | some k =>
      if k = "" then { title := title, content := content, imageKey := none, image := none }
      else { title := title, content := content, imageKey := some k, image := some k }
  | none => { title := title, content := content, imageKey := none, image := none }

/-- The UI-facing projection: the record plus an optionally resolved image URL
(`WithImageUrl<NoteView>` in the source). -/
structure DisplayNote where
  record : Record
  imageUrl : Option String
deriving DecidableEq

/-- The file attached to the form (`File`): original name and MIME type. -/
structure FileInfo where
  name : String
  contentType : String
deriving DecidableEq

/-- The form state: `{ title, content?, imageFile }` (lines 59–67). -/
structure Form where
  title : String
  content : Option String
  imageFile : Option FileInfo
deriving DecidableEq

/-- The component state the controller mutates: the notes list, the loading
flag and the form. -/
structure AppState where
  notes : List DisplayNote
  loading : Bool
  form : Form
deriving DecidableEq

/-- One externally observable call or side effect, in program order. -/
inductive Event where
  | setLoading (b : Bool)
  | listCall
  | resolveCall (key : String)
  | uploadCall (path : String) (contentType : String)
  | createCall (input : CreateInput)
  | deleteCall (id : String)
  | logError (tag : String)
deriving DecidableEq

/-- The behaviour of the external collaborators during one operation.
`Except.error ()` models a thrown exception / rejected promise; the record
store's list and create return errors alongside (possibly null) data. -/
structure Env where
  listResult : Except Unit (Option (List Record) × List String)
  resolveUrl : String → Except Unit String
  now : Nat
  uploadResult : Except Unit Unit
  createResult : CreateInput → Except Unit (Option Record × List String)
  deleteResult : String → Except Unit Unit

/-- Result of running one controller operation. -/
structure OpResult where
  events : List Event
  state : AppState
  outcome : Except Unit Unit

/-- The per-record enrichment step inside `fetchNotes` (lines 81–94): if the
detected image key is truthy, resolve a URL for it; a resolution failure is
caught and the record is kept without `imageUrl`.  (`createNote` lines 129–138
perform the same best-effort enrichment on the newly created record.) -/
def enrichOne (resolveUrl : String → Except Unit String) (n : Record) : DisplayNote :=
  match getImageKey n with
  | some key =>
      if key = "" then { record := n, imageUrl := none }
      else
        match resolveUrl key with
        | .ok u => { record := n, imageUrl := some u }
        | .error _ => { record := n, imageUrl := none }
  | none => { record := n, imageUrl := none }

/-- The URL-resolution calls issued for a list of records: one per record whose
detected image key is truthy. -/
def resolveEvents (records : List Record) : List Event :=
  records.filterMap fun n =>
    match getImageKey n with
    | some key => if key = "" then none else some (Event.resolveCall key)
    | none => none

/-- `src/App.tsx` `fetchNotes` (lines 74–101): sets `loading`, lists the
records (`data ?? []`), logs partial errors, enriches every record with a
best-effort image URL, replaces the notes list, and clears `loading` in a
`finally` block so a thrown list call still clears it and propagates. -/
def fetchNotes (env : Env) (s : AppState) : OpResult :=
  match env.listResult with
  | .error _ =>
      { events := [.setLoading true, .listCall, .setLoading false]
        state := { s with loading := false }
        outcome := .error () }
  | .ok (data, errors) =>
      let logEvs := if errors.isEmpty then [] else [Event.logError "List errors"]
      let records := data.getD []
      let enriched := records.map (enrichOne env.resolveUrl)
      { events := [.setLoading true, .listCall] ++ logEvs ++ resolveEvents records
          ++ [.setLoading false]
        state := { s with notes := enriched, loading := false }
        outcome := .ok () }

/-- `form.content?.trim() || undefined` (line 109): a missing or
whitespace-only content becomes absent. -/
def normalizeContent (content : Option String) : Option String :=
  match content with
  | some c => if jsTrim c = "" then none else some (jsTrim c)
  | none => none

/-- The object key generated for an upload (line 115):
`public/notes/(Date.now())_(file name)`. -/
def uploadPath (now : Nat) (fileName : String) : String :=
  "public/notes/" ++ toString now ++ "_" ++ fileName

/-- The form value installed after a successful create (line 141). -/
def clearedForm : Form := { title := "", content := some "", imageFile := none }

/-- `src/App.tsx` `createNote` lines 123–142, after any upload has succeeded:
builds the payload, calls create, logs reported errors, and on a returned
record prepends its best-effort enrichment and clears the form.  When the
store returns errors with `data: null`, line 130 (`getImageKey(created)`)
reads a property of `null`, so a TypeError is thrown after the log
(modelled as `.error ()` with the state unchanged). -/
def createAfterUpload (env : Env) (s : AppState) (title : String)
    (content : Option String) (imagePath : Option String)
    (evs : List Event) : OpResult :=
  let input := buildCreateInput title content imagePath
  match env.createResult input with
  | .error _ => { events := evs ++ [.createCall input], state := s, outcome := .error () }
  | .ok (created, errors) =>
      let logEvs := if errors.isEmpty then [] else [Event.logError "Create errors"]
      match created with
      | none =>
          { events := evs ++ [.createCall input] ++ logEvs, state := s, outcome := .error () }
      | some r =>
          let newItem := enrichOne env.resolveUrl r
          { events := evs ++ [.createCall input] ++ logEvs ++ resolveEvents [r]
            state := { s with notes := newItem :: s.notes, form := clearedForm }
            outcome := .ok () }

/-- `src/App.tsx` `createNote` (lines 104–143): a blank (after trimming) title
is a silent no-op; otherwise, when an image file is attached it is uploaded
first under `uploadPath` (a failed upload aborts: create is never called and
the exception propagates) and only then is the record created. -/
def createNote (env : Env) (s : AppState) : OpResult :=
  let title := jsTrim s.form.title
  if title = "" then { events := [], state := s, outcome := .ok () }
  else
    let content := normalizeContent s.form.content
    match s.form.imageFile with
    | some f =>
        let path := uploadPath env.now f.name
        match env.uploadResult with
        | .error _ =>
            { events := [.uploadCall path f.contentType], state := s, outcome := .error () }
        | .ok _ =>
            createAfterUpload env s title content (some path)
              [.uploadCall path f.contentType]
    | none => createAfterUpload env s title content none []

/-- `src/App.tsx` `deleteNote` (lines 146–149): awaits the record-store delete
(a thrown delete propagates before any state change), then filters the
in-memory list by id. -/
def deleteNote (env : Env) (id : String) (s : AppState) : OpResult :=
  match env.deleteResult id with
  | .error _ => { events := [.deleteCall id], state := s, outcome := .error () }
  | .ok _ =>
      { events := [.deleteCall id]
        state := { s with notes := s.notes.filter fun n => n.record.id != id }
        outcome := .ok () }

/-- The storage actions grantable by the access configuration. -/
inductive StorageAction where
  | read | write | delete
deriving DecidableEq

/-- Whether `path` matches the access pattern `media/(entity_id)/*` of
`amplify/storage/resource.ts` for the identity `entityId`: the pattern's
`entity_id` token is substituted with the user's identifier and `*` matches
any suffix, so a path matches iff it extends `media/(entityId)/`. -/
def matchesEntityMedia (entityId : String) (path : String) : Bool :=
  ("media/" ++ entityId ++ "/").data.isPrefixOf path.data

/-- `amplify/storage/resource.ts` (lines 4–11): the single access rule grants
the owning identity read, write and delete on paths matching
`media/(entity_id)/*`; every other path is granted nothing. -/
def storageAccess (entityId : String) (path : String) : List StorageAction :=
  if matchesEntityMedia entityId path then [.read, .write, .delete] else []

/-- The ids of the in-memory notes, in list order. -/
def noteIds (l : List DisplayNote) : List String := l.map fun n => n.record.id

end NotesApp

/-! ### General lemmas about the embedded operations -/

namespace NotesApp

theorem enrichOne_record (res : String → Except Unit String) (n : Record) :
    (enrichOne res n).record = n := by
  unfold enrichOne
  cases getImageKey n with
  | none => rfl
  | some key =>
      by_cases he : key = ""
      · simp [he]
      · simp [he]
        cases res key <;> rfl

theorem enrichOne_imageUrl_isSome (res : String → Except Unit String) (n : Record) :
    (enrichOne res n).imageUrl.isSome = true ↔
      ∃ k u, getImageKey n = some k ∧ k ≠ "" ∧ res k = .ok u := by
  unfold enrichOne
  cases hk : getImageKey n with
  | none => simp
  | some key =>
      by_cases he : key = ""
      · subst he; simp
      · cases hr : res key with
        | ok u => simp [he, hr]
        | error e => simp [he, hr]

theorem createNote_noop_of_blank_title (env : Env) (s : AppState)
    (h : jsTrim s.form.title = "") :
    createNote env s = { events := [], state := s, outcome := .ok () } := by
  simp [createNote, h]

theorem createNote_eq_of_imageFile_none (env : Env) (s : AppState)
    (ht : jsTrim s.form.title ≠ "") (hf : s.form.imageFile = none) :
    createNote env s = createAfterUpload env s (jsTrim s.form.title)
      (normalizeContent s.form.content) none [] := by
  simp [createNote, ht, hf]

theorem createNote_eq_of_upload_ok (env : Env) (s : AppState) (f : FileInfo)
    (ht : jsTrim s.form.title ≠ "") (hf : s.form.imageFile = some f)
    (hu : env.uploadResult = .ok ()) :
    createNote env s = createAfterUpload env s (jsTrim s.form.title)
      (normalizeContent s.form.content) (some (uploadPath env.now f.name))
      [.uploadCall (uploadPath env.now f.name) f.contentType] := by
  simp [createNote, ht, hf, hu]

theorem createNote_eq_of_upload_error (env : Env) (s : AppState) (f : FileInfo)
    (ht : jsTrim s.form.title ≠ "") (hf : s.form.imageFile = some f)
    (hu : env.uploadResult = .error ()) :
    createNote env s =
      { events := [.uploadCall (uploadPath env.now f.name) f.contentType]
        state := s
        outcome := .error () } := by
  simp [createNote, ht, hf, hu]

theorem createAfterUpload_events (env : Env) (s : AppState) (title : String)
    (content : Option String) (imagePath : Option String) (evs : List Event) :
    ∃ rest, (createAfterUpload env s title content imagePath evs).events
      = evs ++ Event.createCall (buildCreateInput title content imagePath) :: rest := by
  simp only [createAfterUpload]
  cases hc : env.createResult (buildCreateInput title content imagePath) with
  | error e => exact ⟨[], by simp⟩
  | ok v =>
      cases v with
      | mk created errors =>
          cases created with
          | none =>
              exact ⟨(if errors = [] then [] else [Event.logError "Create errors"]), by simp⟩
          | some r =>
              exact ⟨(if errors = [] then [] else [Event.logError "Create errors"])
                ++ resolveEvents [r], by simp⟩

theorem createAfterUpload_spec (env : Env) (s : AppState) (title : String)
    (content : Option String) (imagePath : Option String) (evs : List Event) :
    (∀ errs, env.createResult (buildCreateInput title content imagePath) = .ok (none, errs) →
      (createAfterUpload env s title content imagePath evs).state = s ∧
      (createAfterUpload env s title content imagePath evs).outcome = .error () ∧
      (errs ≠ [] →
        Event.logError "Create errors" ∈ (createAfterUpload env s title content imagePath evs).events)) ∧
    (∀ r errs, env.createResult (buildCreateInput title content imagePath) = .ok (some r, errs) →
      (createAfterUpload env s title content imagePath evs).state.notes
        = enrichOne env.resolveUrl r :: s.notes ∧
      (createAfterUpload env s title content imagePath evs).state.form = clearedForm ∧
      (createAfterUpload env s title content imagePath evs).outcome = .ok () ∧
      (errs ≠ [] →
        Event.logError "Create errors" ∈ (createAfterUpload env s title content imagePath evs).events)) := by
  constructor
  · intro errs hc
    refine ⟨?_, ?_, fun hne => ?_⟩
    · simp [createAfterUpload, hc]
    · simp [createAfterUpload, hc]
    · simp [createAfterUpload, hc, hne]
  · intro r errs hc
    refine ⟨?_, ?_, ?_, fun hne => ?_⟩
    · simp [createAfterUpload, hc]
    · simp [createAfterUpload, hc]
    · simp [createAfterUpload, hc]
    · simp [createAfterUpload, hc, hne]

theorem createAfterUpload_state_cases (env : Env) (s : AppState) (title : String)
    (content : Option String) (imagePath : Option String) (evs : List Event) :
    (createAfterUpload env s title content imagePath evs).state = s ∨
    ∃ r errs, env.createResult (buildCreateInput title content imagePath) = .ok (some r, errs) ∧
      (createAfterUpload env s title content imagePath evs).state.notes
        = enrichOne env.resolveUrl r :: s.notes := by
  simp only [createAfterUpload]
  cases hc : env.createResult (buildCreateInput title content imagePath) with
  | error e => left; rfl
  | ok v =>
      cases v with
      | mk created errors =>
          cases created with
          | none => left; rfl
          | some r => right; exact ⟨r, errors, rfl, rfl⟩

theorem createNote_state_cases (env : Env) (s : AppState) :
    (createNote env s).state = s ∨
    ∃ input r errs, env.createResult input = .ok (some r, errs) ∧
      (createNote env s).state.notes = enrichOne env.resolveUrl r :: s.notes := by
  by_cases ht : jsTrim s.form.title = ""
  · left; rw [createNote_noop_of_blank_title env s ht]
  · cases hf : s.form.imageFile with
    | none =>
        rw [createNote_eq_of_imageFile_none env s ht hf]
        rcases createAfterUpload_state_cases env s (jsTrim s.form.title)
          (normalizeContent s.form.content) none [] with h | ⟨r, errs, hc, hn⟩
        · left; exact h
        · right; exact ⟨_, r, errs, hc, hn⟩
    | some f =>
        cases hu : env.uploadResult with
        | error e =>
            left; rw [createNote_eq_of_upload_error env s f ht hf hu]
        | ok u =>
            rw [createNote_eq_of_upload_ok env s f ht hf hu]
            rcases createAfterUpload_state_cases env s (jsTrim s.form.title)
              (normalizeContent s.form.content) (some (uploadPath env.now f.name))
              [.uploadCall (uploadPath env.now f.name) f.contentType] with h | ⟨r, errs, hc, hn⟩
            · left; exact h
            · right; exact ⟨_, r, errs, hc, hn⟩

theorem createNote_head_upload (env : Env) (s : AppState) (f : FileInfo)
    (ht : jsTrim s.form.title ≠ "") (hf : s.form.imageFile = some f) :
    (createNote env s).events.head? =
      some (.uploadCall (uploadPath env.now f.name) f.contentType) := by
  cases hu : env.uploadResult with
  | error e =>
      rw [createNote_eq_of_upload_error env s f ht hf hu]
      rfl
  | ok u =>
      rw [createNote_eq_of_upload_ok env s f ht hf hu]
      obtain ⟨rest, hev⟩ := createAfterUpload_events env s (jsTrim s.form.title)
        (normalizeContent s.form.content) (some (uploadPath env.now f.name))
        [.uploadCall (uploadPath env.now f.name) f.contentType]
      rw [hev]
      rfl

theorem matchesEntityMedia_public_notes (entityId rest : String) :
    matchesEntityMedia entityId ("public/notes/" ++ rest) = false := by
  unfold matchesEntityMedia
  rw [Bool.eq_false_iff]
  intro hpre
  rw [List.isPrefixOf_iff_prefix] at hpre
  rw [String.data_append, String.data_append, String.data_append] at hpre
  have hm : "media/".data = 'm' :: "edia/".data := rfl
  have hp : "public/notes/".data = 'p' :: "ublic/notes/".data := rfl
  rw [hm, hp] at hpre
  simp only [List.cons_append] at hpre
  rw [List.cons_prefix_cons] at hpre
  exact absurd hpre.1 (by decide)

end NotesApp

/-! ### Concrete instances used to witness the theorems -/

namespace NotesApp

/-- A stored note carrying an image key. -/
def exRecord : Record :=
  { id := "r1", title := "T", content := none, imageKey := some "k1", image := none }

/-- A second stored note, without an image. -/
def exRecord2 : Record :=
  { id := "r2", title := "U", content := some "c", imageKey := none, image := none }

/-- The record the benign environment pretends the store persisted: the
payload echoed back under a fresh id. -/
def echoRecord (input : CreateInput) : Record where
  id := "new1"
  title := input.title
  content := input.content
  imageKey := input.imageKey
  image := input.image

/-- A benign environment: one stored record, all calls succeed, create echoes
the payload back under a fresh id. -/
def exEnv : Env where
  listResult := .ok (some [exRecord], [])
  resolveUrl := fun k => .ok ("https://cdn.example/" ++ k)
  now := 12
  uploadResult := .ok ()
  createResult := fun input => .ok (some (echoRecord input), [])
  deleteResult := fun _ => .ok ()

/-- Same environment but the list call throws. -/
def exEnvListFail : Env :=
  { exEnv with listResult := .error () }

/-- Same environment but the upload call throws. -/
def exEnvUploadFail : Env :=
  { exEnv with uploadResult := .error () }

/-- Same environment but create reports errors and returns no record. -/
def exEnvNullCreate : Env :=
  { exEnv with createResult := fun _ => .ok (none, ["Create failed"]) }

/-- A form filled with a padded title and padded content, no image. -/
def exState : AppState :=
  { notes := [], loading := false
    form := { title := " My Title ", content := some " body ", imageFile := none } }

/-- A form whose title is whitespace only. -/
def exStateBlank : AppState :=
  { notes := [], loading := false
    form := { title := "   ", content := some "x", imageFile := none } }

/-- The attached image file of `exStateImage`. -/
def exFile : FileInfo := { name := "cat.png", contentType := "image/png" }

/-- A form with a title and an attached image file. -/
def exStateImage : AppState :=
  { notes := [], loading := false
    form := { title := "Pic", content := none, imageFile := some exFile } }

/-- A state holding two notes, for the delete witnesses. -/
def exStateNotes : AppState :=
  { notes := [{ record := exRecord, imageUrl := none },
              { record := exRecord2, imageUrl := none }]
    loading := false
    form := { title := "", content := some "", imageFile := none } }

end NotesApp

/-! ### The claims -/

namespace NotesApp

/-- C1: for every list of records the record store returns, `fetchNotes`
replaces the in-memory list with exactly one DisplayNote per input record in
store-returned order; the i-th DisplayNote carries exactly the i-th record,
and it has `imageUrl` present iff that record's detected image key is
non-empty and URL resolution for that key succeeded.  The list equals
`data.map (enrichOne env.resolveUrl)`, so each entry depends only on its own
record: one resolution failure leaves its own entry without `imageUrl` and
cannot remove or alter any other entry. -/
theorem fetchNotes_one_display_note_per_record (env : Env) (s : AppState)
    (data : List Record) (errors : List String)
    (h : env.listResult = .ok (some data, errors)) :
    (fetchNotes env s).outcome = .ok () ∧
    (fetchNotes env s).state.notes = data.map (enrichOne env.resolveUrl) ∧
    (fetchNotes env s).state.notes.length = data.length ∧
    ∀ i : Nat, i < data.length →
      ∃ d e, data[i]? = some d ∧ (fetchNotes env s).state.notes[i]? = some e ∧
        e.record = d ∧
        (e.imageUrl.isSome = true ↔
          ∃ k u, getImageKey d = some k ∧ k ≠ "" ∧ env.resolveUrl k = .ok u) := by
  have hnotes : (fetchNotes env s).state.notes = data.map (enrichOne env.resolveUrl) := by
    simp [fetchNotes, h]
  refine ⟨by simp [fetchNotes, h], hnotes, by simp [hnotes], ?_⟩
  intro i hi
  refine ⟨data[i], enrichOne env.resolveUrl data[i],
    List.getElem?_eq_getElem hi, ?_, enrichOne_record _ _, enrichOne_imageUrl_isSome _ _⟩
  rw [hnotes, List.getElem?_map, List.getElem?_eq_getElem hi]
  rfl

/-- C1 witness: on the concrete benign environment the fetch succeeds and
yields one DisplayNote whose URL was resolved from the record's image key. -/
theorem fetchNotes_one_display_note_per_record_witness :
    (fetchNotes exEnv exState).outcome = .ok () ∧
    (fetchNotes exEnv exState).state.notes.length = 1 := by
  have h := fetchNotes_one_display_note_per_record exEnv exState [exRecord] [] rfl
  exact ⟨h.1, h.2.2.1.trans (by decide)⟩

/-- C2 counterexample: the claim says create-time errors reported by the
store are logged instead of thrown; but when the store reports errors and
returns no record (`data: null`, the standard shape of a failed create),
`createNote` logs them and then throws — reading the image-key field off the
null record raises a TypeError — so the call does not return gracefully. -/
theorem createNote_null_record_throws :
    Event.logError "Create errors" ∈ (createNote exEnvNullCreate exState).events ∧
    (createNote exEnvNullCreate exState).state = exState ∧
    (createNote exEnvNullCreate exState).outcome = .error () := by decide

/-- C2 (amended): `createNote` logs create-time errors reported by the record
store; when the store returns a created record it prepends the new
DisplayNote (image URL resolved on a best-effort basis) to the front of the
in-memory list and clears the input form; when the store returns no created
record, no entry is added to the in-memory list and nothing else changes, but
the call throws (a TypeError from probing the null record for an image key)
instead of returning gracefully. -/
theorem createNote_create_errors_behavior (env : Env) (s : AppState)
    (ht : jsTrim s.form.title ≠ "")
    (hup : s.form.imageFile = none ∨ env.uploadResult = .ok ()) :
    ∃ input, Event.createCall input ∈ (createNote env s).events ∧
    (∀ errs, env.createResult input = .ok (none, errs) →
      (createNote env s).state = s ∧
      (createNote env s).outcome = .error () ∧
      (errs ≠ [] → Event.logError "Create errors" ∈ (createNote env s).events)) ∧
    (∀ r errs, env.createResult input = .ok (some r, errs) →
      (createNote env s).state.notes = enrichOne env.resolveUrl r :: s.notes ∧
      (createNote env s).state.form = clearedForm ∧
      (createNote env s).outcome = .ok () ∧
      (errs ≠ [] → Event.logError "Create errors" ∈ (createNote env s).events)) := by
  have key : ∀ (imagePath : Option String) (evs : List Event),
      createNote env s = createAfterUpload env s (jsTrim s.form.title)
        (normalizeContent s.form.content) imagePath evs →
      ∃ input, Event.createCall input ∈ (createNote env s).events ∧
      (∀ errs, env.createResult input = .ok (none, errs) →
        (createNote env s).state = s ∧
        (createNote env s).outcome = .error () ∧
        (errs ≠ [] → Event.logError "Create errors" ∈ (createNote env s).events)) ∧
      (∀ r errs, env.createResult input = .ok (some r, errs) →
        (createNote env s).state.notes = enrichOne env.resolveUrl r :: s.notes ∧
        (createNote env s).state.form = clearedForm ∧
        (createNote env s).outcome = .ok () ∧
        (errs ≠ [] → Event.logError "Create errors" ∈ (createNote env s).events)) := by
    intro imagePath evs heq
    obtain ⟨rest, hev⟩ := createAfterUpload_events env s (jsTrim s.form.title)
      (normalizeContent s.form.content) imagePath evs
    obtain ⟨hnone, hsome⟩ := createAfterUpload_spec env s (jsTrim s.form.title)
      (normalizeContent s.form.content) imagePath evs
    refine ⟨buildCreateInput (jsTrim s.form.title) (normalizeContent s.form.content) imagePath,
      ?_, ?_, ?_⟩
    · rw [heq, hev]; simp
    · intro errs hc
      rw [heq]
      exact hnone errs hc
    · intro r errs hc
      rw [heq]
      exact hsome r errs hc
  rcases hup with hf | hu
  · exact key none [] (createNote_eq_of_imageFile_none env s ht hf)
  · cases hf : s.form.imageFile with
    | none => exact key none [] (createNote_eq_of_imageFile_none env s ht hf)
    | some f =>
        exact key (some (uploadPath env.now f.name))
          [.uploadCall (uploadPath env.now f.name) f.contentType]
          (createNote_eq_of_upload_ok env s f ht hf hu)

/-- C2 witness: in the benign environment a create call is issued. -/
theorem createNote_create_errors_behavior_witness :
    ∃ input, Event.createCall input ∈ (createNote exEnv exState).events := by
  obtain ⟨input, h1, _, _⟩ :=
    createNote_create_errors_behavior exEnv exState (by decide) (Or.inl rfl)
  exact ⟨input, h1⟩

/-- C3: when the title is empty or whitespace-only after trimming,
`createNote` is a no-op: the state (and thus the in-memory list) is
unchanged, no error is raised, and neither the record-store create nor the
blob-store upload is ever called. -/
theorem createNote_blank_title_is_noop (env : Env) (s : AppState)
    (h : jsTrim s.form.title = "") :
    (createNote env s).state = s ∧
    (createNote env s).outcome = .ok () ∧
    (∀ input, Event.createCall input ∉ (createNote env s).events) ∧
    (∀ path ct, Event.uploadCall path ct ∉ (createNote env s).events) := by
  rw [createNote_noop_of_blank_title env s h]
  simp

/-- C3 witness: a whitespace-only title leaves the concrete state unchanged
and calls nothing. -/
theorem createNote_blank_title_is_noop_witness :
    (createNote exEnv exStateBlank).state = exStateBlank ∧
    (createNote exEnv exStateBlank).outcome = .ok () := by
  have h := createNote_blank_title_is_noop exEnv exStateBlank (by decide)
  exact ⟨h.1, h.2.1⟩

end NotesApp

namespace NotesApp

/-- C4: when `createNote` is given an image file (and a non-blank title), the
upload call is the first external call — strictly before any create call: on
upload failure the trace is the upload call alone (create is never
attempted), the state including the in-memory list is unchanged, and the
exception propagates; on upload success the create call is attempted
immediately after the upload. -/
theorem createNote_upload_before_create (env : Env) (s : AppState) (f : FileInfo)
    (ht : jsTrim s.form.title ≠ "") (hf : s.form.imageFile = some f) :
    (createNote env s).events.head? =
      some (.uploadCall (uploadPath env.now f.name) f.contentType) ∧
    (env.uploadResult = .error () →
      (createNote env s).events = [.uploadCall (uploadPath env.now f.name) f.contentType] ∧
      (createNote env s).state = s ∧
      (createNote env s).outcome = .error ()) ∧
    (env.uploadResult = .ok () →
      ∃ input, (createNote env s).events[1]? = some (.createCall input)) := by
  refine ⟨createNote_head_upload env s f ht hf, ?_⟩
  cases hu : env.uploadResult with
  | error e =>
      rw [createNote_eq_of_upload_error env s f ht hf hu]
      exact ⟨fun _ => ⟨rfl, rfl, rfl⟩, fun hok => absurd hok (by simp)⟩
  | ok u =>
      rw [createNote_eq_of_upload_ok env s f ht hf hu]
      obtain ⟨rest, hev⟩ := createAfterUpload_events env s (jsTrim s.form.title)
        (normalizeContent s.form.content) (some (uploadPath env.now f.name))
        [.uploadCall (uploadPath env.now f.name) f.contentType]
      rw [hev]
      exact ⟨fun habs => absurd habs (by simp),
        fun _ => ⟨buildCreateInput (jsTrim s.form.title) (normalizeContent s.form.content)
          (some (uploadPath env.now f.name)), by simp⟩⟩

/-- C4 witness: with a failing upload the concrete run stops at the upload
call, changes nothing, and propagates the failure. -/
theorem createNote_upload_before_create_witness :
    (createNote exEnvUploadFail exStateImage).events
      = [.uploadCall "public/notes/12_cat.png" "image/png"] ∧
    (createNote exEnvUploadFail exStateImage).state = exStateImage ∧
    (createNote exEnvUploadFail exStateImage).outcome = .error () := by
  have h := (createNote_upload_before_create exEnvUploadFail exStateImage exFile
    (by decide) rfl).2.1 rfl
  refine ⟨h.1.trans (by decide), h.2.1, h.2.2⟩

/-- C5: `deleteNote id` always issues the record-store delete call first; when
it succeeds, the new in-memory list is exactly the previous list with every
element whose id equals the argument removed — no remaining element carries
that id and the remaining elements keep their relative order (the new list is
a sublist of the old); when the delete throws, the exception propagates and
the state is unchanged. -/
theorem deleteNote_filters_by_id (env : Env) (id : String) (s : AppState) :
    (deleteNote env id s).events = [.deleteCall id] ∧
    (env.deleteResult id = .ok () →
      (deleteNote env id s).state.notes = s.notes.filter (fun n => n.record.id != id) ∧
      (∀ n ∈ (deleteNote env id s).state.notes, n.record.id ≠ id) ∧
      List.Sublist (deleteNote env id s).state.notes s.notes ∧
      (deleteNote env id s).outcome = .ok ()) ∧
    (env.deleteResult id = .error () →
      (deleteNote env id s).state = s ∧
      (deleteNote env id s).outcome = .error ()) := by
  cases hd : env.deleteResult id with
  | error e =>
      refine ⟨by simp [deleteNote, hd], fun habs => absurd habs (by simp), fun _ => ?_⟩
      simp [deleteNote, hd]
  | ok u =>
      refine ⟨by simp [deleteNote, hd],
        fun _ => ⟨by simp [deleteNote, hd], ?_, ?_, by simp [deleteNote, hd]⟩,
        fun habs => absurd habs (by simp)⟩
      · intro n hn
        have hmem : n ∈ s.notes.filter (fun n => n.record.id != id) := by
          simpa [deleteNote, hd] using hn
        have := (List.mem_filter.mp hmem).2
        simpa using this
      · have heq : (deleteNote env id s).state.notes
            = s.notes.filter (fun n => n.record.id != id) := by
          simp [deleteNote, hd]
        rw [heq]
        exact List.filter_sublist s.notes

/-- C5 witness: deleting id `"r1"` from the concrete two-note list removes
exactly that entry and keeps the other. -/
theorem deleteNote_filters_by_id_witness :
    (deleteNote exEnv "r1" exStateNotes).state.notes
      = [{ record := exRecord2, imageUrl := none }] ∧
    (deleteNote exEnv "r1" exStateNotes).outcome = .ok () := by
  have h := (deleteNote_filters_by_id exEnv "r1" exStateNotes).2.1 rfl
  exact ⟨h.1.trans (by decide), h.2.2.2⟩

/-- C6: with an image file attached (and a non-blank title), the object key
passed to the blob-store upload is exactly the string `public/notes/`
followed by the current time in milliseconds, an underscore, and the original
file name; and for every identity, that key matches no pattern of the storage
access configuration, so the grant list for it is empty — the uploading
identity gets no read, write or delete access to it. -/
theorem upload_key_shape_and_access (env : Env) (s : AppState) (f : FileInfo)
    (ht : jsTrim s.form.title ≠ "") (hf : s.form.imageFile = some f) :
    (createNote env s).events.head? = some (.uploadCall
      ("public/notes/" ++ toString env.now ++ "_" ++ f.name) f.contentType) ∧
    ∀ entityId : String,
      storageAccess entityId ("public/notes/" ++ toString env.now ++ "_" ++ f.name) = [] := by
  have hpath : uploadPath env.now f.name
      = "public/notes/" ++ (toString env.now ++ "_" ++ f.name) := by
    simp [uploadPath, String.append_assoc]
  constructor
  · have h1 := createNote_head_upload env s f ht hf
    rw [h1, hpath]
    simp [String.append_assoc]
  · intro entityId
    have hm := matchesEntityMedia_public_notes entityId (toString env.now ++ "_" ++ f.name)
    have hassoc : ("public/notes/" ++ toString env.now ++ "_" ++ f.name)
        = "public/notes/" ++ (toString env.now ++ "_" ++ f.name) := by
      simp only [String.append_assoc]
    rw [storageAccess, hassoc, hm]
    simp

/-- C6 witness: the concrete upload key and its empty grant list. -/
theorem upload_key_shape_and_access_witness :
    (createNote exEnv exStateImage).events.head?
      = some (.uploadCall "public/notes/12_cat.png" "image/png") ∧
    storageAccess "someIdentity" "public/notes/12_cat.png" = [] := by
  have h := upload_key_shape_and_access exEnv exStateImage exFile (by decide) rfl
  have hs : ("public/notes/" ++ toString exEnv.now ++ "_" ++ exFile.name)
      = "public/notes/12_cat.png" := by decide
  constructor
  · rw [h.1, hs]
    decide
  · have := h.2 "someIdentity"
    rw [hs] at this
    exact this

end NotesApp

namespace NotesApp

/-- C7: `fetchNotes` emits `setLoading true` before the list call, its final
state always has `loading = false` — both on success and when the list call
throws (the `finally` path) — and a thrown list call still propagates to the
caller. -/
theorem fetchNotes_loading_toggle (env : Env) (s : AppState) :
    (fetchNotes env s).events.take 2 = [.setLoading true, .listCall] ∧
    (fetchNotes env s).state.loading = false ∧
    Event.setLoading false ∈ (fetchNotes env s).events ∧
    (env.listResult = .error () → (fetchNotes env s).outcome = .error ()) := by
  cases henv : env.listResult with
  | error e => simp [fetchNotes, henv]
  | ok v =>
      cases v with
      | mk data errors => simp [fetchNotes, henv]

/-- C7 witness: on the concrete throwing list call, loading is cleared and
the failure propagates. -/
theorem fetchNotes_loading_toggle_witness :
    (fetchNotes exEnvListFail exState).state.loading = false ∧
    (fetchNotes exEnvListFail exState).outcome = .error () := by
  have h := fetchNotes_loading_toggle exEnvListFail exState
  exact ⟨h.2.1, h.2.2.2 rfl⟩

/-- C8: `createNote` (without an image file) sends the record store a payload
whose title is the form title with surrounding whitespace trimmed and whose
content is the trimmed form content, with a content that is empty after
trimming treated as absent; no image field is attached. -/
theorem createNote_trims_title_and_content (env : Env) (s : AppState)
    (ht : jsTrim s.form.title ≠ "") (hf : s.form.imageFile = none) :
    ∃ input, (createNote env s).events.head? = some (.createCall input) ∧
      input.title = jsTrim s.form.title ∧
      input.content = normalizeContent s.form.content ∧
      input.imageKey = none ∧ input.image = none := by
  rw [createNote_eq_of_imageFile_none env s ht hf]
  obtain ⟨rest, hev⟩ := createAfterUpload_events env s (jsTrim s.form.title)
    (normalizeContent s.form.content) none []
  refine ⟨buildCreateInput (jsTrim s.form.title) (normalizeContent s.form.content) none,
    ?_, ?_, ?_, ?_, ?_⟩ <;> simp [hev, buildCreateInput]

/-- C8 witness: the spec example — title `" My Title "` and content
`" body "` are sent as `"My Title"` and `"body"`. -/
theorem createNote_trims_title_and_content_witness :
    ∃ input, (createNote exEnv exState).events.head? = some (.createCall input) ∧
      input.title = "My Title" ∧ input.content = some "body" := by
  obtain ⟨input, h1, h2, h3, _⟩ :=
    createNote_trims_title_and_content exEnv exState (by decide) rfl
  exact ⟨input, h1, h2.trans (by decide), h3.trans (by decide)⟩

/-- C9: ids remain unique across the three list mutations.  A whole-list
replacement by `fetchNotes` keeps uniqueness when the store returns records
with pairwise distinct ids; the prepend of `createNote` keeps uniqueness when
every record the store reports as created carries an id not already in the
list; and the filter of `deleteNote` keeps uniqueness unconditionally. -/
theorem note_ids_unique_invariant :
    (∀ (env : Env) (s : AppState) (data : List Record) (errors : List String),
      env.listResult = .ok (some data, errors) → (data.map Record.id).Nodup →
      (noteIds (fetchNotes env s).state.notes).Nodup) ∧
    (∀ (env : Env) (s : AppState),
      (noteIds s.notes).Nodup →
      (∀ input r errs, env.createResult input = .ok (some r, errs) → r.id ∉ noteIds s.notes) →
      (noteIds (createNote env s).state.notes).Nodup) ∧
    (∀ (env : Env) (id : String) (s : AppState),
      (noteIds s.notes).Nodup → (noteIds (deleteNote env id s).state.notes).Nodup) := by
  refine ⟨?_, ?_, ?_⟩
  · intro env s data errors h hd
    have h1 : (fetchNotes env s).state.notes = data.map (enrichOne env.resolveUrl) := by
      simp [fetchNotes, h]
    have h2 : noteIds (data.map (enrichOne env.resolveUrl)) = data.map Record.id := by
      unfold noteIds
      rw [List.map_map]
      exact List.map_congr_left fun a _ => by simp [Function.comp, enrichOne_record]
    rw [h1, h2]
    exact hd
  · intro env s hd hfresh
    rcases createNote_state_cases env s with h | ⟨input, r, errs, hc, hn⟩
    · rw [h]; exact hd
    · have h2 : noteIds (enrichOne env.resolveUrl r :: s.notes) = r.id :: noteIds s.notes := by
        simp [noteIds, enrichOne_record]
      rw [hn, h2, List.nodup_cons]
      exact ⟨hfresh input r errs hc, hd⟩
  · intro env id s hd
    cases hdel : env.deleteResult id with
    | error e => simpa [deleteNote, hdel] using hd
    | ok u =>
        have h1 : (deleteNote env id s).state.notes
            = s.notes.filter (fun n => n.record.id != id) := by
          simp [deleteNote, hdel]
        rw [h1]
        unfold noteIds
        exact List.Nodup.sublist ((List.filter_sublist s.notes).map _) hd

/-- C9 witness: uniqueness is preserved by the concrete delete. -/
theorem note_ids_unique_invariant_witness :
    (noteIds (deleteNote exEnv "r1" exStateNotes).state.notes).Nodup :=
  note_ids_unique_invariant.2.2 exEnv "r1" exStateNotes (by decide)

/-- C10: `buildCreateInput` writes a non-empty image key to both candidate
fields (`imageKey` and `image`) of the payload and, without a key, writes
neither; symmetrically `getImageKey` reads the `imageKey` field first and
falls back to the `image` field when `imageKey` is missing or not a string. -/
theorem image_key_dual_field_contract :
    (∀ (title : String) (content : Option String) (k : String), k ≠ "" →
      (buildCreateInput title content (some k)).imageKey = some k ∧
      (buildCreateInput title content (some k)).image = some k) ∧
    (∀ (title : String) (content : Option String),
      (buildCreateInput title content none).imageKey = none ∧
      (buildCreateInput title content none).image = none) ∧
    (∀ (n : Record) (k : String), n.imageKey = some k → getImageKey n = some k) ∧
    (∀ n : Record, n.imageKey = none → getImageKey n = n.image) := by
  refine ⟨?_, ?_, ?_, ?_⟩
  · intro title content k hk; simp [buildCreateInput, hk]
  · intro title content; simp [buildCreateInput]
  · intro n k hk; simp [getImageKey, hk]
  · intro n hk; simp [getImageKey, hk]

/-- C10 witness: a concrete non-empty key lands in both payload fields. -/
theorem image_key_dual_field_contract_witness :
    (buildCreateInput "T" none (some "k")).imageKey = some "k" ∧
    (buildCreateInput "T" none (some "k")).image = some "k" :=
  image_key_dual_field_contract.1 "T" none "k" (by decide)

end NotesApp
